import Mathlib

/-!
# SynchronizedImage (filament/backend/include/backend/SynchronizedImage.h)

A shallow embedding of the move-only handle `SynchronizedImage` and of the
lifetime contract of its release callback.

Modelling decisions.

* A `void*` and a `Callback` (a C function pointer) are addresses, modelled as
  natural numbers; `nullptr` is `0`, so the C++ test `if (callback)` is
  `callback ≠ nullptr`.
* C++ handles are objects with identity (`this != &rhs`), so the state is a
  store of objects indexed by their address, together with the log of every
  callback invocation made so far.  A slot holding `none` is an object whose
  lifetime has ended.
* Calling through the function pointer is recorded as one `Invocation` in the
  log; the body of the callback is external code and is taken not to touch the
  handles of the store.
* Using an object outside its lifetime is undefined behaviour in C++; every
  operation returns `none` there.
-/

namespace filament.backend

/-- The null address. -/
def nullptr : Nat := 0

/-- The three data members of the class, with their default member
initializers (`= nullptr`). -/
structure SynchronizedImage where
  image : Nat := nullptr
  callback : Nat := nullptr
  user : Nat := nullptr
deriving DecidableEq

/-- One call `callback(image, user)` made through a stored function pointer. -/
structure Invocation where
  callback : Nat
  image : Nat
  user : Nat
deriving DecidableEq

/-- The program state: the objects by address and the log of invocations. -/
structure Machine where
  objs : List (Option SynchronizedImage)
  calls : List Invocation
deriving DecidableEq

namespace Machine

/-- The object living at address `a`, if there is one. -/
def lookup (m : Machine) (a : Nat) : Option SynchronizedImage :=
  (m.objs[a]?).join

/-- Overwrite the object stored at address `a`. -/
def store (m : Machine) (a : Nat) (h : SynchronizedImage) : Machine :=
  { m with objs := m.objs.set a (some h) }

/-- Begin the lifetime of a new object; its address is returned. -/
def alloc (m : Machine) (h : SynchronizedImage) : Nat × Machine :=
  (m.objs.length, { m with objs := m.objs ++ [some h] })

/-- End the lifetime of the object at address `a`. -/
def dealloc (m : Machine) (a : Nat) : Option Machine :=
  (m.lookup a).map fun _ => { m with objs := m.objs.set a none }

/-- The call `cb(image, user)` through a function pointer. -/
def invoke (m : Machine) (cb image user : Nat) : Machine :=
  { m with calls := m.calls ++ [⟨cb, image, user⟩] }

/-- Read of the member `image` of the object at `a`. -/
def readImage (m : Machine) (a : Nat) : Option Nat :=
  (m.lookup a).map fun h => h.image

/-- Read of the member `callback` of the object at `a`. -/
def readCallback (m : Machine) (a : Nat) : Option Nat :=
  (m.lookup a).map fun h => h.callback

/-- Read of the member `user` of the object at `a`. -/
def readUser (m : Machine) (a : Nat) : Option Nat :=
  (m.lookup a).map fun h => h.user

/-- The assignment `a->image = v`; `image` is a public member, so this is
also what client code does when it mutates the field. -/
def writeImage (m : Machine) (a v : Nat) : Option Machine :=
  (m.lookup a).map fun h => m.store a { h with image := v }

/-- The assignment `a->callback = v`. -/
def writeCallback (m : Machine) (a v : Nat) : Option Machine :=
  (m.lookup a).map fun h => m.store a { h with callback := v }

/-- The assignment `a->user = v`. -/
def writeUser (m : Machine) (a v : Nat) : Option Machine :=
  (m.lookup a).map fun h => m.store a { h with user := v }

/-- Default constructor `SynchronizedImage() noexcept = default`: every member
takes its default member initializer. -/
def defaultConstruct (m : Machine) : Nat × Machine :=
  m.alloc {}

/-- Parameterized constructor
`SynchronizedImage(void const* image, Callback callback = nullptr, void* user = nullptr)`,
with member initializers `image(const_cast<void*>(image)), callback(callback), user(user)`. -/
def construct (m : Machine) (image : Nat) (callback : Nat := nullptr)
    (user : Nat := nullptr) : Nat × Machine :=
  m.alloc { image := image, callback := callback, user := user }

/-- Destructor `~SynchronizedImage()`:
`if (callback) { callback(image, user); }`, after which the lifetime of the
object ends. -/
def dtor (m : Machine) (this : Nat) : Option Machine := do
  let callback ← m.readCallback this
  let m ← (if callback ≠ nullptr then do
      let image ← m.readImage this
      let user ← m.readUser this
      pure (m.invoke callback image user)
    else pure m)
  m.dealloc this

/-- Move constructor `SynchronizedImage(SynchronizedImage&& rhs)`: member
initializers `image(rhs.image), callback(rhs.callback), user(rhs.user)`, then
the body `rhs.image = nullptr; rhs.callback = nullptr;`.  Returns the address
of the new object. -/
def moveConstruct (m : Machine) (rhs : Nat) : Option (Nat × Machine) := do
  let image ← m.readImage rhs
  let callback ← m.readCallback rhs
  let user ← m.readUser rhs
  let (this, m) := m.alloc { image := image, callback := callback, user := user }
  let m ← m.writeImage rhs nullptr
  let m ← m.writeCallback rhs nullptr
  pure (this, m)

/-- Move assignment `operator=(SynchronizedImage&& rhs)`, called on the object
at `this`:
`if (this != &rhs) { image = rhs.image; callback = rhs.callback; user = rhs.user;
rhs.image = nullptr; rhs.callback = nullptr; } return *this;`.
Both `*this` and `rhs` have to be alive for the call to be defined. -/
def moveAssign (m : Machine) (this rhs : Nat) : Option Machine := do
  let _ ← m.lookup this
  let _ ← m.lookup rhs
  if this ≠ rhs then do
    let v ← m.readImage rhs
    let m ← m.writeImage this v
    let v ← m.readCallback rhs
    let m ← m.writeCallback this v
    let v ← m.readUser rhs
    let m ← m.writeUser this v
    let m ← m.writeImage rhs nullptr
    let m ← m.writeCallback rhs nullptr
    pure m
  else
    pure m

/-- Member `setCallback(Callback callback, void* user = nullptr)`:
`this->callback = callback; this->user = user;`. -/
def setCallback (m : Machine) (this : Nat) (callback : Nat)
    (user : Nat := nullptr) : Option Machine := do
  let m ← m.writeCallback this callback
  let m ← m.writeUser this user
  pure m

/-- Member `hasCallback() const`: `return callback != nullptr;`.  The state
after the call is returned along with the result. -/
def hasCallback (m : Machine) (this : Nat) : Option (Bool × Machine) := do
  let callback ← m.readCallback this
  pure (callback != nullptr, m)

/-- Member `getCallback() const`: `return callback;`. -/
def getCallback (m : Machine) (this : Nat) : Option (Nat × Machine) := do
  let callback ← m.readCallback this
  pure (callback, m)

/-- Member `getUser() const`: `return user;`. -/
def getUser (m : Machine) (this : Nat) : Option (Nat × Machine) := do
  let user ← m.readUser this
  pure (user, m)

/-- A chain of `n` move constructions starting from the handle at `a`: the
second handle is move-constructed from the first, the third from the second,
and so on.  Returns the addresses of the `n + 1` handles, oldest first. -/
def moveChain : Nat → Machine → Nat → Option (List Nat × Machine)
  | 0, m, a => some ([a], m)
  | n + 1, m, a => do
    let (b, m1) ← m.moveConstruct a
    let (bs, m2) ← moveChain n m1 b
    pure (a :: bs, m2)

/-- The destructor run on each of the listed handles, in the order of the
list. -/
def dtorAll : Machine → List Nat → Option Machine
  | m, [] => some m
  | m, a :: as => do
    let m1 ← m.dtor a
    dtorAll m1 as

/-- Whether a slot holds a live handle whose stored callback satisfies `q`. -/
def carries (q : Nat → Bool) : Option SynchronizedImage → Bool
  | some h => q h.callback
  | none => false

/-- The number of live handles that store a non-null callback. -/
def liveCallbacks (m : Machine) : Nat :=
  m.objs.countP (carries fun c => c != nullptr)

/-- The number of live handles that store the callback `c`. -/
def carriers (m : Machine) (c : Nat) : Nat :=
  m.objs.countP (carries fun x => x == c)

/-- The steps of a system of handles: a new handle is move-constructed from
the one at `rhs`, the handle at `this` is move-assigned from the one at `rhs`
(possibly itself), or the handle at `this` is destroyed. -/
inductive Step where
  | moveConstruct (rhs : Nat)
  | moveAssign (this rhs : Nat)
  | destroy (this : Nat)
deriving DecidableEq

/-- The handles a step operates on are alive. -/
def Step.operandsLive (m : Machine) : Step → Bool
  | .moveConstruct rhs => (m.lookup rhs).isSome
  | .moveAssign this rhs => (m.lookup this).isSome && (m.lookup rhs).isSome
  | .destroy this => (m.lookup this).isSome

/-- One step of the system. -/
def step (m : Machine) : Step → Option Machine
  | .moveConstruct rhs => (m.moveConstruct rhs).map fun r => r.2
  | .moveAssign this rhs => m.moveAssign this rhs
  | .destroy this => m.dtor this

/-- A sequence of steps, run in order. -/
def run : Machine → List Step → Option Machine
  | m, [] => some m
  | m, st :: sts => do
    let m1 ← m.step st
    run m1 sts

end Machine

/-! ## Basic facts about the store -/

theorem Machine.lookup_lt {m : Machine} {a : Nat} {h : SynchronizedImage}
    (hl : m.lookup a = some h) : a < m.objs.length := by
  unfold Machine.lookup at hl
  rw [Option.join_eq_some] at hl
  exact (List.getElem?_eq_some.mp hl).1

theorem Machine.lookup_store {m : Machine} {a : Nat} {h : SynchronizedImage}
    (hl : m.lookup a = some h) (h' : SynchronizedImage) (b : Nat) :
    (m.store a h').lookup b = if b = a then some h' else m.lookup b := by
  have hlt := Machine.lookup_lt hl
  unfold Machine.lookup Machine.store
  by_cases hb : b = a
  · subst hb
    simp [List.getElem?_set, hlt]
  · have hb' : a ≠ b := fun e => hb e.symm
    simp [List.getElem?_set_ne hb', hb]

theorem Machine.store_store (m : Machine) (a : Nat) (h h' : SynchronizedImage) :
    (m.store a h).store a h' = m.store a h' := by
  simp [Machine.store, List.set_set]

theorem Machine.lookup_store_self {m : Machine} {a : Nat} {h : SynchronizedImage}
    (hl : m.lookup a = some h) (h' : SynchronizedImage) :
    (m.store a h').lookup a = some h' := by
  simp [Machine.lookup_store hl]

@[simp] theorem Machine.lookup_invoke (m : Machine) (cb image user a : Nat) :
    (m.invoke cb image user).lookup a = m.lookup a := rfl

@[simp] theorem Machine.objs_invoke (m : Machine) (cb image user : Nat) :
    (m.invoke cb image user).objs = m.objs := rfl

/-- The destructor on a live object, in closed form. -/
theorem Machine.dtor_eq {m : Machine} {a : Nat} {h : SynchronizedImage}
    (hl : m.lookup a = some h) :
    m.dtor a = some
      { objs := m.objs.set a none
        calls := m.calls ++
          (if h.callback ≠ nullptr then [⟨h.callback, h.image, h.user⟩] else []) } := by
  unfold Machine.dtor
  by_cases hc : h.callback = nullptr
  · simp [Machine.readCallback, Machine.readImage, Machine.readUser, Machine.dealloc, hl, hc]
  · simp [Machine.readCallback, Machine.readImage, Machine.readUser, Machine.dealloc, hl, hc]
    rfl

/-- The destructor of a live object without callback logs nothing. -/
theorem Machine.dtor_null {m : Machine} {a : Nat} {h : SynchronizedImage}
    (hl : m.lookup a = some h) (hc : h.callback = nullptr) :
    m.dtor a = some { objs := m.objs.set a none, calls := m.calls } := by
  rw [Machine.dtor_eq hl]
  simp [hc]

/-- The destructor of a live object with a callback logs its invocation. -/
theorem Machine.dtor_live {m : Machine} {a : Nat} {h : SynchronizedImage}
    (hl : m.lookup a = some h) (hc : h.callback ≠ nullptr) :
    m.dtor a = some
      { objs := m.objs.set a none
        calls := m.calls ++ [⟨h.callback, h.image, h.user⟩] } := by
  rw [Machine.dtor_eq hl]
  simp [hc]

theorem Machine.readImage_eq {m : Machine} {a : Nat} {h : SynchronizedImage}
    (hl : m.lookup a = some h) : m.readImage a = some h.image := by
  simp [Machine.readImage, hl]

theorem Machine.readCallback_eq {m : Machine} {a : Nat} {h : SynchronizedImage}
    (hl : m.lookup a = some h) : m.readCallback a = some h.callback := by
  simp [Machine.readCallback, hl]

theorem Machine.readUser_eq {m : Machine} {a : Nat} {h : SynchronizedImage}
    (hl : m.lookup a = some h) : m.readUser a = some h.user := by
  simp [Machine.readUser, hl]

theorem Machine.writeImage_eq {m : Machine} {a : Nat} {h : SynchronizedImage}
    (hl : m.lookup a = some h) (v : Nat) :
    m.writeImage a v = some (m.store a ⟨v, h.callback, h.user⟩) := by
  simp [Machine.writeImage, hl]

theorem Machine.writeCallback_eq {m : Machine} {a : Nat} {h : SynchronizedImage}
    (hl : m.lookup a = some h) (v : Nat) :
    m.writeCallback a v = some (m.store a ⟨h.image, v, h.user⟩) := by
  simp [Machine.writeCallback, hl]

theorem Machine.writeUser_eq {m : Machine} {a : Nat} {h : SynchronizedImage}
    (hl : m.lookup a = some h) (v : Nat) :
    m.writeUser a v = some (m.store a ⟨h.image, h.callback, v⟩) := by
  simp [Machine.writeUser, hl]

/-- The move constructor on a live source, in closed form: the new object is
appended with the three members of the source, and the source keeps only its
`user`. -/
theorem Machine.moveConstruct_eq {m : Machine} {a : Nat} {h : SynchronizedImage}
    (hl : m.lookup a = some h) :
    m.moveConstruct a = some (m.objs.length,
      { objs := m.objs.set a (some ⟨nullptr, nullptr, h.user⟩) ++ [some h]
        calls := m.calls }) := by
  have hlt := Machine.lookup_lt hl
  have hl1 : (m.alloc ⟨h.image, h.callback, h.user⟩).2.lookup a = some h := by
    simp only [Machine.alloc, Machine.lookup]
    rw [List.getElem?_append_left hlt]
    exact hl
  have hl2 := Machine.lookup_store_self hl1 ⟨nullptr, h.callback, h.user⟩
  unfold Machine.moveConstruct
  simp only [Machine.readImage_eq hl, Machine.readCallback_eq hl, Machine.readUser_eq hl,
    Option.bind_eq_bind, Option.some_bind, Machine.writeImage_eq hl1,
    Machine.writeCallback_eq hl2, Machine.store_store]
  simp [Machine.alloc, Machine.store, List.set_append_left, hlt]

/-- Move assignment between two distinct live objects, in closed form. -/
theorem Machine.moveAssign_eq {m : Machine} {this rhs : Nat} {d s : SynchronizedImage}
    (hd : m.lookup this = some d) (hs : m.lookup rhs = some s) (hne : this ≠ rhs) :
    m.moveAssign this rhs = some
      { objs := (m.objs.set this (some s)).set rhs (some ⟨nullptr, nullptr, s.user⟩)
        calls := m.calls } := by
  have hne' : rhs ≠ this := fun e => hne e.symm
  have d1 := Machine.lookup_store_self hd ⟨s.image, d.callback, d.user⟩
  have s1 : (m.store this ⟨s.image, d.callback, d.user⟩).lookup rhs = some s := by
    rw [Machine.lookup_store hd, if_neg hne', hs]
  have d2 := Machine.lookup_store_self d1 ⟨s.image, s.callback, d.user⟩
  rw [Machine.store_store] at d2
  have s2 : (m.store this ⟨s.image, s.callback, d.user⟩).lookup rhs = some s := by
    rw [Machine.lookup_store hd, if_neg hne', hs]
  have s3 : (m.store this ⟨s.image, s.callback, s.user⟩).lookup rhs = some s := by
    rw [Machine.lookup_store hd, if_neg hne', hs]
  have s4 := Machine.lookup_store_self s3 ⟨nullptr, s.callback, s.user⟩
  unfold Machine.moveAssign
  simp only [hd, hs, hne, Option.bind_eq_bind, Option.some_bind, ne_eq, not_false_eq_true,
    if_true, Machine.readImage_eq hs, Machine.writeImage_eq hd,
    Machine.readCallback_eq s1, Machine.writeCallback_eq d1, Machine.store_store,
    Machine.readUser_eq s2, Machine.writeUser_eq d2, Machine.writeImage_eq s3,
    Machine.writeCallback_eq s4]
  rfl

/-- Self move assignment of a live object leaves the state as it is. -/
theorem Machine.moveAssign_self {m : Machine} {a : Nat} {h : SynchronizedImage}
    (hl : m.lookup a = some h) : m.moveAssign a a = some m := by
  simp [Machine.moveAssign, hl]

/-- The member `setCallback` on a live object, in closed form. -/
theorem Machine.setCallback_eq {m : Machine} {a : Nat} {h : SynchronizedImage}
    (hl : m.lookup a = some h) (cb u : Nat) :
    m.setCallback a cb u = some (m.store a ⟨h.image, cb, u⟩) := by
  have h1 := Machine.lookup_store_self hl ⟨h.image, cb, h.user⟩
  unfold Machine.setCallback
  simp only [Machine.writeCallback_eq hl, Option.bind_eq_bind, Option.some_bind,
    Machine.writeUser_eq h1, Machine.store_store]
  rfl

/-- An object whose lifetime the destructor has ended is gone, the others are
untouched. -/
theorem Machine.lookup_set_none (m : Machine) (a b : Nat) (cs : List Invocation) :
    Machine.lookup { objs := m.objs.set a none, calls := cs } b =
      if b = a then none else m.lookup b := by
  unfold Machine.lookup
  by_cases hb : b = a
  · subst hb
    by_cases hlt : b < m.objs.length
    · simp [List.getElem?_set, hlt]
    · simp [List.getElem?_set, hlt]
  · have hb' : a ≠ b := fun e => hb e.symm
    simp [List.getElem?_set_ne hb', hb]

/-- The store after a move construction from `a`: the new object sits at the
end, the source slot holds what is left of the source. -/
theorem Machine.lookup_moved (m : Machine) {a : Nat} (hlt : a < m.objs.length)
    (x h : SynchronizedImage) (cs : List Invocation) (c : Nat) :
    Machine.lookup { objs := m.objs.set a (some x) ++ [some h], calls := cs } c =
      if c = m.objs.length then some h else if c = a then some x else m.lookup c := by
  unfold Machine.lookup
  simp only [List.getElem?_append, List.length_set]
  by_cases h1 : c = m.objs.length
  · subst h1
    simp
  · by_cases h2 : c < m.objs.length
    · by_cases h3 : c = a
      · subst h3
        simp [h1, h2, List.getElem?_set]
      · have h3' : a ≠ c := fun e => h3 e.symm
        simp [h1, h2, h3, List.getElem?_set_ne h3']
    · have h4 : c ≠ a := by omega
      have h5 : m.objs.length ≤ c := by omega
      have h6 : c - m.objs.length ≠ 0 := by omega
      have h7 : ([some h] : List (Option SynchronizedImage))[c - m.objs.length]? = none := by
        apply List.getElem?_eq_none
        simp
        omega
      simp [h1, h2, h4, h7, List.getElem?_eq_none h5]

theorem Machine.lookup_alloc_self (m : Machine) (h : SynchronizedImage) :
    (m.alloc h).2.lookup (m.alloc h).1 = some h := by
  simp [Machine.alloc, Machine.lookup]

/-- Destroying, in any order, distinct live handles that hold no callback logs
nothing and leaves the other objects as they were. -/
theorem Machine.dtorAll_null (as : List Nat) : ∀ (m : Machine), as.Nodup →
    (∀ c ∈ as, ∃ x, m.lookup c = some x ∧ x.callback = nullptr) →
    ∃ m2, m.dtorAll as = some m2 ∧ m2.calls = m.calls ∧
      ∀ c, c ∉ as → m2.lookup c = m.lookup c := by
  induction as with
  | nil =>
    intro m _ _
    exact ⟨m, rfl, rfl, fun _ _ => rfl⟩
  | cons a as ih =>
    intro m hnd hall
    obtain ⟨x, hx, hxc⟩ := hall a (List.mem_cons_self a as)
    have hna : a ∉ as := (List.nodup_cons.mp hnd).1
    have hrest : ∀ c ∈ as, ∃ y,
        Machine.lookup { objs := m.objs.set a none, calls := m.calls } c = some y ∧
          y.callback = nullptr := by
      intro c hc
      have hca : c ≠ a := fun e => hna (e ▸ hc)
      rw [Machine.lookup_set_none, if_neg hca]
      exact hall c (List.mem_cons_of_mem a hc)
    obtain ⟨m2, h2, hcalls, hframe⟩ := ih _ (List.nodup_cons.mp hnd).2 hrest
    refine ⟨m2, ?_, hcalls, ?_⟩
    · simp only [Machine.dtorAll, Machine.dtor_null hx hxc, Option.bind_eq_bind,
        Option.some_bind]
      exact h2
    · intro c hc
      have hca : c ≠ a := fun e => hc (e ▸ List.mem_cons_self a as)
      have hcas : c ∉ as := fun e => hc (List.mem_cons_of_mem a e)
      rw [hframe c hcas, Machine.lookup_set_none, if_neg hca]

/-- Destroying, in any order, distinct live handles of which only the one at
`l` may hold a callback: the log grows by the invocation of that callback if
`l` is among the destroyed handles, and by nothing otherwise. -/
theorem Machine.dtorAll_single (l : Nat) (h : SynchronizedImage)
    (hc : h.callback ≠ nullptr) (as : List Nat) : ∀ (m : Machine), as.Nodup →
    m.lookup l = some h →
    (∀ c ∈ as, c ≠ l → ∃ x, m.lookup c = some x ∧ x.callback = nullptr) →
    ∃ m2, m.dtorAll as = some m2 ∧
      m2.calls = m.calls ++ (if l ∈ as then [⟨h.callback, h.image, h.user⟩] else []) := by
  induction as with
  | nil =>
    intro m _ _ _
    exact ⟨m, rfl, by simp⟩
  | cons a as ih =>
    intro m hnd hl hall
    have hna : a ∉ as := (List.nodup_cons.mp hnd).1
    have hnd2 : as.Nodup := (List.nodup_cons.mp hnd).2
    by_cases hal : a = l
    · subst hal
      have hrest : ∀ c ∈ as, ∃ y,
          Machine.lookup ⟨m.objs.set a none,
            m.calls ++ [⟨h.callback, h.image, h.user⟩]⟩ c = some y ∧
            y.callback = nullptr := by
        intro c hcm
        have hca : c ≠ a := fun e => hna (e ▸ hcm)
        rw [Machine.lookup_set_none, if_neg hca]
        exact hall c (List.mem_cons_of_mem a hcm) hca
      obtain ⟨m2, h2, hcalls, _⟩ := Machine.dtorAll_null as _ hnd2 hrest
      refine ⟨m2, ?_, ?_⟩
      · simp only [Machine.dtorAll, Machine.dtor_live hl hc, Option.bind_eq_bind,
          Option.some_bind]
        exact h2
      · simp [hcalls]
    · obtain ⟨x, hx, hxc⟩ := hall a (List.mem_cons_self a as) hal
      have hl2 : Machine.lookup { objs := m.objs.set a none, calls := m.calls } l = some h := by
        rw [Machine.lookup_set_none, if_neg (Ne.symm hal), hl]
      have hrest : ∀ c ∈ as, c ≠ l → ∃ y,
          Machine.lookup { objs := m.objs.set a none, calls := m.calls } c = some y ∧
            y.callback = nullptr := by
        intro c hcm hcl
        have hca : c ≠ a := fun e => hna (e ▸ hcm)
        rw [Machine.lookup_set_none, if_neg hca]
        exact hall c (List.mem_cons_of_mem a hcm) hcl
      obtain ⟨m2, h2, hcalls⟩ := ih _ hnd2 hl2 hrest
      refine ⟨m2, ?_, ?_⟩
      · simp only [Machine.dtorAll, Machine.dtor_null hx hxc, Option.bind_eq_bind,
          Option.some_bind]
        exact h2
      · have hmem : l ∈ a :: as ↔ l ∈ as := by
          simp [List.mem_cons, Ne.symm hal]
        simp only [hcalls, hmem]

/-- A chain of `n` move constructions from a live handle with members `h`
succeeds and logs nothing; it yields `n + 1` distinct live handles, the last of
which holds `h` while all the others hold a null callback. -/
theorem Machine.moveChain_spec (h : SynchronizedImage) (n : Nat) :
    ∀ (m : Machine) (a : Nat), m.lookup a = some h →
    ∃ hs l m1, Machine.moveChain n m a = some (hs, m1) ∧ m1.calls = m.calls ∧
      hs.length = n + 1 ∧ hs.head? = some a ∧ hs.getLast? = some l ∧ hs.Nodup ∧
      (∀ c ∈ hs, c = a ∨ m.objs.length ≤ c) ∧
      m1.lookup l = some h ∧
      (∀ c ∈ hs, c ≠ l → ∃ x, m1.lookup c = some x ∧ x.callback = nullptr) ∧
      (∀ c, c < m.objs.length → c ≠ a → m1.lookup c = m.lookup c) ∧
      (0 < n → m1.lookup a = some ⟨nullptr, nullptr, h.user⟩) := by
  induction n with
  | zero =>
    intro m a hl
    refine ⟨[a], a, m, rfl, rfl, rfl, rfl, rfl, List.nodup_singleton a, ?_, hl, ?_,
      fun _ _ _ => rfl, fun h0 => absurd h0 (Nat.lt_irrefl 0)⟩
    · intro c hc
      exact Or.inl (List.mem_singleton.mp hc)
    · intro c hc hne
      exact absurd (List.mem_singleton.mp hc) hne
  | succ n ih =>
    intro m a hl
    have hlt := Machine.lookup_lt hl
    have hne : m.objs.length ≠ a := by omega
    have hlk := Machine.lookup_moved m hlt ⟨nullptr, nullptr, h.user⟩ h m.calls
    have hb := hlk m.objs.length
    rw [if_pos rfl] at hb
    have ha := hlk a
    rw [if_neg (Ne.symm hne), if_pos rfl] at ha
    obtain ⟨hs, l, m1, hch, hcalls, hlen, hhead, hlast, hnd, hge, hll, hnull, hframe, _⟩ :=
      ih _ m.objs.length hb
    have hlen1 : (m.objs.set a (some ⟨nullptr, nullptr, h.user⟩) ++ [some h]).length =
        m.objs.length + 1 := by simp
    have hge2 : ∀ c ∈ hs, m.objs.length ≤ c := by
      intro c hc
      rcases hge c hc with e | e
      · exact Nat.le_of_eq e.symm
      · simp only [hlen1] at e
        omega
    have hnotin : a ∉ hs := fun e => by
      have := hge2 a e
      omega
    have hla : m1.lookup a = some ⟨nullptr, nullptr, h.user⟩ := by
      rw [hframe a (by simp only [hlen1]; omega) (Ne.symm hne)]
      exact ha
    have hlmem : l ∈ hs := List.mem_of_getLast?_eq_some hlast
    refine ⟨a :: hs, l, m1, ?_, hcalls, by simp [hlen], rfl, ?_,
      List.nodup_cons.mpr ⟨hnotin, hnd⟩, ?_, hll, ?_, ?_, fun _ => hla⟩
    · simp only [Machine.moveChain, Machine.moveConstruct_eq hl, Option.bind_eq_bind,
        Option.some_bind, hch]
      rfl
    · rw [List.getLast?_cons, hlast]
      rfl
    · intro c hc
      rcases List.mem_cons.mp hc with e | e
      · exact Or.inl e
      · exact Or.inr (hge2 c e)
    · intro c hc hcl
      rcases List.mem_cons.mp hc with e | e
      · subst e
        exact ⟨_, hla, rfl⟩
      · exact hnull c e hcl
    · intro c hclt hca
      rw [hframe c (by simp only [hlen1]; omega) (by omega), hlk c,
        if_neg (by omega), if_neg hca]

/-- Destroying two handles one after the other. -/
theorem Machine.dtorAll_pair {m m1 m2 : Machine} {a b : Nat}
    (h1 : m.dtor a = some m1) (h2 : m1.dtor b = some m2) :
    m.dtorAll [a, b] = some m2 := by
  simp [Machine.dtorAll, h1, h2]

theorem Machine.getUser_eq {m : Machine} {a : Nat} {h : SynchronizedImage}
    (hl : m.lookup a = some h) : m.getUser a = some (h.user, m) := by
  simp [Machine.getUser, Machine.readUser_eq hl]

theorem Machine.getCallback_eq {m : Machine} {a : Nat} {h : SynchronizedImage}
    (hl : m.lookup a = some h) : m.getCallback a = some (h.callback, m) := by
  simp [Machine.getCallback, Machine.readCallback_eq hl]

/-! ## The intermediate states of the two moves -/

/-- Overwriting one slot of a list changes a count by the slot alone. -/
theorem Machine.countP_set_add {α : Type} (p : α → Bool) (x : α) :
    ∀ (l : List α) (i : Nat) (y : α), l[i]? = some y →
    (l.set i x).countP p + (if p y then 1 else 0) =
      l.countP p + (if p x then 1 else 0) := by
  intro l
  induction l with
  | nil =>
    intro i y hy
    simp at hy
  | cons z l ih =>
    intro i y hy
    cases i with
    | zero =>
      simp only [List.getElem?_cons_zero, Option.some.injEq] at hy
      subst hy
      simp only [List.set_cons_zero, List.countP_cons]
      omega
    | succ i =>
      simp only [List.getElem?_cons_succ] at hy
      have := ih i y hy
      simp only [List.set_cons_succ, List.countP_cons]
      omega

theorem Machine.getElem?_of_lookup {m : Machine} {a : Nat} {h : SynchronizedImage}
    (hl : m.lookup a = some h) : m.objs[a]? = some (some h) :=
  Option.join_eq_some.mp hl

/-- Move construction keeps the number of carriers. -/
theorem Machine.count_moveConstruct (q : Nat → Bool) (hq : q nullptr = false)
    {m : Machine} {a : Nat} {h : SynchronizedImage} (hl : m.lookup a = some h) :
    (m.objs.set a (some ⟨nullptr, nullptr, h.user⟩) ++ [some h]).countP (Machine.carries q) =
      m.objs.countP (Machine.carries q) := by
  have e := Machine.countP_set_add (Machine.carries q) (some ⟨nullptr, nullptr, h.user⟩)
    m.objs a (some h) (Machine.getElem?_of_lookup hl)
  simp only [Machine.carries, hq] at e
  simp only [List.countP_append, List.countP_singleton, Machine.carries]
  simpa using e

/-- Move assignment between distinct handles loses the carrier the destination
was, if it was one. -/
theorem Machine.count_moveAssign (q : Nat → Bool) (hq : q nullptr = false)
    {m : Machine} {this rhs : Nat} {d s : SynchronizedImage}
    (hd : m.lookup this = some d) (hs : m.lookup rhs = some s) (hne : this ≠ rhs) :
    ((m.objs.set this (some s)).set rhs (some ⟨nullptr, nullptr, s.user⟩)).countP
        (Machine.carries q) + (if q d.callback then 1 else 0) =
      m.objs.countP (Machine.carries q) := by
  have e1 := Machine.countP_set_add (Machine.carries q) (some s) m.objs this (some d)
    (Machine.getElem?_of_lookup hd)
  have hs1 : (m.objs.set this (some s))[rhs]? = some (some s) := by
    rw [List.getElem?_set_ne hne]
    exact Machine.getElem?_of_lookup hs
  have e2 := Machine.countP_set_add (Machine.carries q) (some ⟨nullptr, nullptr, s.user⟩)
    (m.objs.set this (some s)) rhs (some s) hs1
  simp only [Machine.carries, hq] at e1 e2
  simp only [Bool.false_eq_true, if_false, Nat.add_zero] at e2
  omega

/-- The destructor loses the carrier the destroyed handle was, if it was one. -/
theorem Machine.count_dtor (q : Nat → Bool) {m : Machine} {a : Nat}
    {h : SynchronizedImage} (hl : m.lookup a = some h) :
    (m.objs.set a none).countP (Machine.carries q) + (if q h.callback then 1 else 0) =
      m.objs.countP (Machine.carries q) := by
  have e := Machine.countP_set_add (Machine.carries q) none m.objs a (some h)
    (Machine.getElem?_of_lookup hl)
  simpa [Machine.carries] using e

theorem Machine.moveConstruct_none {m : Machine} {a : Nat} (hl : m.lookup a = none) :
    m.moveConstruct a = none := by
  simp [Machine.moveConstruct, Machine.readImage, hl]

theorem Machine.dtor_none {m : Machine} {a : Nat} (hl : m.lookup a = none) :
    m.dtor a = none := by
  simp [Machine.dtor, Machine.readCallback, hl]

theorem Machine.moveAssign_none {m : Machine} {this rhs : Nat}
    (hl : m.lookup this = none ∨ m.lookup rhs = none) : m.moveAssign this rhs = none := by
  rcases hl with e | e
  · simp [Machine.moveAssign, e]
  · cases hd : m.lookup this <;> simp [Machine.moveAssign, e, hd]

/-- A step is defined exactly when the handles it operates on are alive. -/
theorem Machine.step_isSome (m : Machine) (st : Machine.Step) :
    (m.step st).isSome = st.operandsLive m := by
  cases st with
  | moveConstruct rhs =>
    cases hl : m.lookup rhs with
    | none => simp [Machine.step, Machine.Step.operandsLive, Machine.moveConstruct_none hl, hl]
    | some h => simp [Machine.step, Machine.Step.operandsLive, Machine.moveConstruct_eq hl, hl]
  | moveAssign this rhs =>
    cases hd : m.lookup this with
    | none =>
      simp [Machine.step, Machine.Step.operandsLive, Machine.moveAssign_none (Or.inl hd), hd]
    | some d =>
      cases hs : m.lookup rhs with
      | none =>
        simp [Machine.step, Machine.Step.operandsLive, Machine.moveAssign_none (Or.inr hs),
          hd, hs]
      | some s =>
        by_cases hne : this = rhs
        · subst hne
          simp [Machine.step, Machine.Step.operandsLive, Machine.moveAssign_self hd, hd]
        · simp [Machine.step, Machine.Step.operandsLive, Machine.moveAssign_eq hd hs hne,
            hd, hs]
  | destroy this =>
    cases hl : m.lookup this with
    | none => simp [Machine.step, Machine.Step.operandsLive, Machine.dtor_none hl, hl]
    | some h => simp [Machine.step, Machine.Step.operandsLive, Machine.dtor_eq hl, hl]

/-- No step increases the number of live handles whose callback satisfies a
predicate that excludes the null callback. -/
theorem Machine.step_count_le (q : Nat → Bool) (hq : q nullptr = false)
    (m : Machine) (st : Machine.Step) (m1 : Machine) (hst : m.step st = some m1) :
    m1.objs.countP (Machine.carries q) ≤ m.objs.countP (Machine.carries q) := by
  cases st with
  | moveConstruct rhs =>
    cases hl : m.lookup rhs with
    | none => simp [Machine.step, Machine.moveConstruct_none hl] at hst
    | some h =>
      simp only [Machine.step, Machine.moveConstruct_eq hl, Option.map_some',
        Option.some.injEq] at hst
      subst hst
      exact Nat.le_of_eq (Machine.count_moveConstruct q hq hl)
  | moveAssign this rhs =>
    cases hd : m.lookup this with
    | none => simp [Machine.step, Machine.moveAssign_none (Or.inl hd)] at hst
    | some d =>
      cases hs : m.lookup rhs with
      | none => simp [Machine.step, Machine.moveAssign_none (Or.inr hs)] at hst
      | some s =>
        by_cases hne : this = rhs
        · subst hne
          simp only [Machine.step, Machine.moveAssign_self hd, Option.some.injEq] at hst
          subst hst
          exact Nat.le_refl _
        · simp only [Machine.step, Machine.moveAssign_eq hd hs hne, Option.some.injEq] at hst
          subst hst
          have := Machine.count_moveAssign q hq hd hs hne
          simp only
          omega
  | destroy this =>
    cases hl : m.lookup this with
    | none => simp [Machine.step, Machine.dtor_none hl] at hst
    | some h =>
      simp only [Machine.step, Machine.dtor_eq hl, Option.some.injEq] at hst
      subst hst
      have := Machine.count_dtor q hl
      simp only
      omega

/-- No run of steps increases such a number either. -/
theorem Machine.run_count_le (q : Nat → Bool) (hq : q nullptr = false)
    (steps : List Machine.Step) : ∀ (m m1 : Machine), m.run steps = some m1 →
    m1.objs.countP (Machine.carries q) ≤ m.objs.countP (Machine.carries q) := by
  induction steps with
  | nil =>
    intro m m1 hrun
    simp only [Machine.run, Option.some.injEq] at hrun
    subst hrun
    exact Nat.le_refl _
  | cons st sts ih =>
    intro m m1 hrun
    cases hst : m.step st with
    | none => simp [Machine.run, hst] at hrun
    | some m2 =>
      simp only [Machine.run, hst, Option.bind_eq_bind, Option.some_bind] at hrun
      exact Nat.le_trans (ih m2 m1 hrun) (Machine.step_count_le q hq m st m2 hst)

/-! ## The claims -/

/-- C1: destroying a live handle whose stored callback is non-null logs exactly
one invocation, that of the stored callback with the image and user fields the
handle holds at that moment, logs nothing else, and ends the handle's lifetime
without touching any other object. -/
theorem C1_dtor_invokes_stored_callback_once (m : Machine) (a : Nat)
    (h : SynchronizedImage) (hl : m.lookup a = some h) (hc : h.callback ≠ nullptr) :
    ∃ m', m.dtor a = some m' ∧
      m'.calls = m.calls ++ [⟨h.callback, h.image, h.user⟩] ∧
      m'.lookup a = none ∧ ∀ b, b ≠ a → m'.lookup b = m.lookup b := by
  refine ⟨_, Machine.dtor_eq hl, ?_, ?_, ?_⟩
  · simp [hc]
  · simp [Machine.lookup_set_none]
  · intro b hb
    simp [Machine.lookup_set_none, hb]

/-- Witness of C1 on a store holding one handle (image 10, callback 7, user 20). -/
theorem C1_dtor_invokes_stored_callback_once_witness :
    ∃ m', Machine.dtor ⟨[some ⟨10, 7, 20⟩], []⟩ 0 = some m' ∧
      m'.calls = [] ++ [⟨7, 10, 20⟩] ∧
      m'.lookup 0 = none ∧
      ∀ b, b ≠ 0 → m'.lookup b = Machine.lookup ⟨[some ⟨10, 7, 20⟩], []⟩ b :=
  C1_dtor_invokes_stored_callback_once ⟨[some ⟨10, 7, 20⟩], []⟩ 0 ⟨10, 7, 20⟩
    (by decide) (by decide)

/-- C2: for a live handle at `a` with non-null callback, image and user
`h`, move construction from it logs nothing; destroying the moved-from source
afterwards logs nothing; destroying the new handle after that logs exactly one
invocation, `h.callback (h.image, h.user)`. -/
theorem C2_move_construct_relocates_obligation (m : Machine) (a : Nat)
    (h : SynchronizedImage) (hl : m.lookup a = some h) (hc : h.callback ≠ nullptr) :
    ∃ b m1 m2 m3, m.moveConstruct a = some (b, m1) ∧ b ≠ a ∧ m1.calls = m.calls ∧
      m1.dtor a = some m2 ∧ m2.calls = m.calls ∧
      m2.dtor b = some m3 ∧ m3.calls = m.calls ++ [⟨h.callback, h.image, h.user⟩] := by
  have hlt := Machine.lookup_lt hl
  have hne : m.objs.length ≠ a := by omega
  have ha := Machine.lookup_moved m hlt ⟨nullptr, nullptr, h.user⟩ h m.calls a
  rw [if_neg (Ne.symm hne), if_pos rfl] at ha
  have hb := Machine.lookup_moved m hlt ⟨nullptr, nullptr, h.user⟩ h m.calls m.objs.length
  rw [if_pos rfl] at hb
  have hb2 := Machine.lookup_set_none
    { objs := m.objs.set a (some ⟨nullptr, nullptr, h.user⟩) ++ [some h], calls := m.calls }
    a m.objs.length m.calls
  rw [if_neg hne, hb] at hb2
  exact ⟨_, _, _, _, Machine.moveConstruct_eq hl, hne, rfl, Machine.dtor_null ha rfl, rfl,
    Machine.dtor_live hb2 hc, rfl⟩

/-- Witness of C2 on a store holding one handle (image 10, callback 7, user 20). -/
theorem C2_move_construct_relocates_obligation_witness :
    ∃ b m1 m2 m3, Machine.moveConstruct ⟨[some ⟨10, 7, 20⟩], []⟩ 0 = some (b, m1) ∧
      b ≠ 0 ∧ m1.calls = [] ∧ m1.dtor 0 = some m2 ∧ m2.calls = [] ∧
      m2.dtor b = some m3 ∧ m3.calls = [] ++ [⟨7, 10, 20⟩] :=
  C2_move_construct_relocates_obligation ⟨[some ⟨10, 7, 20⟩], []⟩ 0 ⟨10, 7, 20⟩
    (by decide) (by decide)

/-- C3, refuted as stated: the destination at address 0 holds callback 7 with
image 10 and user 20, the source at address 1 holds callback 8 with image 11 and
user 21.  Move-assigning the source into the destination logs no invocation,
and after both handles have been destroyed the whole log is the single
invocation that came with the source: 7 (10, 20) is never invoked. -/
theorem C3_overwrite_releases_destination_counterexample :
    (Machine.moveAssign ⟨[some ⟨10, 7, 20⟩, some ⟨11, 8, 21⟩], []⟩ 0 1).map
        (fun m1 => m1.calls) = some [] ∧
    (((Machine.moveAssign ⟨[some ⟨10, 7, 20⟩, some ⟨11, 8, 21⟩], []⟩ 0 1).bind
        (fun m1 => m1.dtor 0)).bind (fun m2 => m2.dtor 1)).map
        (fun m3 => m3.calls) = some [⟨8, 11, 21⟩] ∧
    (((Machine.moveAssign ⟨[some ⟨10, 7, 20⟩, some ⟨11, 8, 21⟩], []⟩ 0 1).bind
        (fun m1 => m1.dtor 0)).bind (fun m2 => m2.dtor 1)).map
        (fun m3 => m3.calls.count ⟨7, 10, 20⟩) = some 0 := by
  decide

/-- C3, amended: a live destination with a non-null callback holds an
obligation (destroying it as it is would log `d.callback (d.image, d.user)`),
but move-assigning a distinct live source (members `s`) into it logs no
invocation, so that obligation is dropped without being released; the
destination then holds the members of the source, destroying it logs only the
invocation that came with the source (none when the source had no callback),
and destroying the source after it logs nothing more. -/
theorem C3_overwrite_drops_destination_obligation (m : Machine) (dst src : Nat)
    (d s : SynchronizedImage) (hd : m.lookup dst = some d) (hs : m.lookup src = some s)
    (hne : dst ≠ src) (hc : d.callback ≠ nullptr) :
    (∃ m0, m.dtor dst = some m0 ∧
      m0.calls = m.calls ++ [⟨d.callback, d.image, d.user⟩]) ∧
    ∃ m1 m2 m3, m.moveAssign dst src = some m1 ∧ m1.calls = m.calls ∧
      m1.lookup dst = some s ∧
      m1.dtor dst = some m2 ∧
      m2.calls = m.calls ++
        (if s.callback ≠ nullptr then [⟨s.callback, s.image, s.user⟩] else []) ∧
      m2.dtor src = some m3 ∧ m3.calls = m2.calls := by
  have hd1 : (m.store dst s).lookup dst = some s := Machine.lookup_store_self hd s
  have hs1 : (m.store dst s).lookup src = some s := by
    rw [Machine.lookup_store hd, if_neg (Ne.symm hne), hs]
  have hd2 : ((m.store dst s).store src ⟨nullptr, nullptr, s.user⟩).lookup dst = some s := by
    rw [Machine.lookup_store hs1, if_neg hne, hd1]
  have hs2 := Machine.lookup_store_self hs1 ⟨nullptr, nullptr, s.user⟩
  have hs3 := Machine.lookup_set_none
    ((m.store dst s).store src ⟨nullptr, nullptr, s.user⟩) dst src
    (m.calls ++ (if s.callback ≠ nullptr then [⟨s.callback, s.image, s.user⟩] else []))
  rw [if_neg (Ne.symm hne), hs2] at hs3
  exact ⟨⟨_, Machine.dtor_live hd hc, rfl⟩,
    _, _, _, Machine.moveAssign_eq hd hs hne, rfl, hd2, Machine.dtor_eq hd2, rfl,
    Machine.dtor_null hs3 rfl, rfl⟩

/-- Witness of the amended C3 on the store of the counterexample. -/
theorem C3_overwrite_drops_destination_obligation_witness :
    (∃ m0, Machine.dtor ⟨[some ⟨10, 7, 20⟩, some ⟨11, 8, 21⟩], []⟩ 0 = some m0 ∧
      m0.calls = [] ++ [⟨7, 10, 20⟩]) ∧
    ∃ m1 m2 m3,
      Machine.moveAssign ⟨[some ⟨10, 7, 20⟩, some ⟨11, 8, 21⟩], []⟩ 0 1 = some m1 ∧
      m1.calls = [] ∧ m1.lookup 0 = some ⟨11, 8, 21⟩ ∧ m1.dtor 0 = some m2 ∧
      m2.calls = [] ++ (if (8 : Nat) ≠ nullptr then [⟨8, 11, 21⟩] else []) ∧
      m2.dtor 1 = some m3 ∧ m3.calls = m2.calls :=
  C3_overwrite_drops_destination_obligation ⟨[some ⟨10, 7, 20⟩, some ⟨11, 8, 21⟩], []⟩ 0 1
    ⟨10, 7, 20⟩ ⟨11, 8, 21⟩ (by decide) (by decide) (by decide) (by decide)

/-- C4: move assignment between two distinct live handles leaves the
destination with the image, callback and user the source had, leaves the source
with a null image and a null callback, and logs no invocation; destroying the
source afterwards logs nothing either. -/
theorem C4_move_assign_transfers_and_clears (m : Machine) (dst src : Nat)
    (d s : SynchronizedImage) (hd : m.lookup dst = some d) (hs : m.lookup src = some s)
    (hne : dst ≠ src) :
    ∃ m1 s1 m2, m.moveAssign dst src = some m1 ∧
      m1.lookup dst = some ⟨s.image, s.callback, s.user⟩ ∧
      m1.lookup src = some s1 ∧ s1.image = nullptr ∧ s1.callback = nullptr ∧
      m1.calls = m.calls ∧
      m1.dtor src = some m2 ∧ m2.calls = m.calls := by
  have hd1 : (m.store dst s).lookup dst = some s := Machine.lookup_store_self hd s
  have hs1 : (m.store dst s).lookup src = some s := by
    rw [Machine.lookup_store hd, if_neg (Ne.symm hne), hs]
  have hd2 : ((m.store dst s).store src ⟨nullptr, nullptr, s.user⟩).lookup dst = some s := by
    rw [Machine.lookup_store hs1, if_neg hne, hd1]
  have hs2 := Machine.lookup_store_self hs1 ⟨nullptr, nullptr, s.user⟩
  exact ⟨_, ⟨nullptr, nullptr, s.user⟩, _, Machine.moveAssign_eq hd hs hne, hd2, hs2,
    rfl, rfl, rfl, Machine.dtor_null hs2 rfl, rfl⟩

/-- Witness of C4: destination (10, 7, 20) at address 0, source (11, 8, 21) at
address 1. -/
theorem C4_move_assign_transfers_and_clears_witness :
    ∃ m1 s1 m2, Machine.moveAssign ⟨[some ⟨10, 7, 20⟩, some ⟨11, 8, 21⟩], []⟩ 0 1 = some m1 ∧
      m1.lookup 0 = some ⟨11, 8, 21⟩ ∧
      m1.lookup 1 = some s1 ∧ s1.image = nullptr ∧ s1.callback = nullptr ∧
      m1.calls = [] ∧ m1.dtor 1 = some m2 ∧ m2.calls = [] :=
  C4_move_assign_transfers_and_clears ⟨[some ⟨10, 7, 20⟩, some ⟨11, 8, 21⟩], []⟩ 0 1
    ⟨10, 7, 20⟩ ⟨11, 8, 21⟩ (by decide) (by decide) (by decide)

/-- C5: self move assignment of a live handle leaves the whole state as it was,
so image, callback and user are unchanged and nothing is logged; destroying the
handle afterwards logs the stored callback exactly once with the unchanged image
and user when the callback is non-null (and nothing when it is null). -/
theorem C5_self_move_assign_is_noop (m : Machine) (a : Nat) (h : SynchronizedImage)
    (hl : m.lookup a = some h) :
    ∃ m1 m2, m.moveAssign a a = some m1 ∧ m1 = m ∧ m1.lookup a = some h ∧
      m1.calls = m.calls ∧ m1.dtor a = some m2 ∧
      m2.calls = m.calls ++
        (if h.callback ≠ nullptr then [⟨h.callback, h.image, h.user⟩] else []) :=
  ⟨_, _, Machine.moveAssign_self hl, rfl, hl, rfl, Machine.dtor_eq hl, rfl⟩

/-- Witness of C5 on a handle with a live callback (image 10, callback 7,
user 20). -/
theorem C5_self_move_assign_is_noop_witness :
    ∃ m1 m2, Machine.moveAssign ⟨[some ⟨10, 7, 20⟩], []⟩ 0 0 = some m1 ∧
      m1 = ⟨[some ⟨10, 7, 20⟩], []⟩ ∧ m1.lookup 0 = some ⟨10, 7, 20⟩ ∧
      m1.calls = [] ∧ m1.dtor 0 = some m2 ∧
      m2.calls = [] ++ (if (7 : Nat) ≠ nullptr then [⟨7, 10, 20⟩] else []) :=
  C5_self_move_assign_is_noop ⟨[some ⟨10, 7, 20⟩], []⟩ 0 ⟨10, 7, 20⟩ (by decide)

/-- C6: on a live handle with image `h.image` (whatever callback and user it
stored), `setCallback cb2 u2` stores `cb2` and `u2`, keeps the image and logs
nothing; destroying the handle right afterwards logs exactly `cb2 (h.image, u2)`
when `cb2` is non-null and nothing when `cb2` is null: every invocation logged
is that of `cb2` with `u2`, and the replaced callback is not invoked (an
invocation of it can only be logged when `cb2` is that same function). -/
theorem C6_setCallback_replaces_obligation (m : Machine) (a : Nat) (h : SynchronizedImage)
    (cb2 u2 : Nat) (hl : m.lookup a = some h) :
    ∃ m1 m2, m.setCallback a cb2 u2 = some m1 ∧
      m1.lookup a = some ⟨h.image, cb2, u2⟩ ∧ m1.calls = m.calls ∧
      m1.dtor a = some m2 ∧
      m2.calls = m.calls ++ (if cb2 ≠ nullptr then [⟨cb2, h.image, u2⟩] else []) ∧
      (∀ c ∈ m2.calls.drop m.calls.length, c = ⟨cb2, h.image, u2⟩) ∧
      (∀ c ∈ m2.calls.drop m.calls.length, c.callback = h.callback → h.callback = cb2) := by
  have h1 := Machine.lookup_store_self hl ⟨h.image, cb2, u2⟩
  have key : ∀ c ∈ (m.calls ++
      (if cb2 ≠ nullptr then [(⟨cb2, h.image, u2⟩ : Invocation)] else [])).drop
        m.calls.length, c = ⟨cb2, h.image, u2⟩ := by
    intro c hc
    simp only [List.drop_left] at hc
    by_cases hn : cb2 = nullptr
    · simp [hn] at hc
    · simpa [hn] using hc
  refine ⟨_, _, Machine.setCallback_eq hl cb2 u2, h1, rfl, Machine.dtor_eq h1, rfl, key, ?_⟩
  intro c hc hcb
  rw [key c hc] at hcb
  exact hcb.symm

/-- Witness of C6: the handle (10, 7, 20) gets callback 8 and user 21. -/
theorem C6_setCallback_replaces_obligation_witness :
    ∃ m1 m2, Machine.setCallback ⟨[some ⟨10, 7, 20⟩], []⟩ 0 8 21 = some m1 ∧
      m1.lookup 0 = some ⟨10, 8, 21⟩ ∧ m1.calls = [] ∧
      m1.dtor 0 = some m2 ∧
      m2.calls = [] ++ (if (8 : Nat) ≠ nullptr then [⟨8, 10, 21⟩] else []) ∧
      (∀ c ∈ m2.calls.drop ([] : List Invocation).length, c = ⟨8, 10, 21⟩) ∧
      (∀ c ∈ m2.calls.drop ([] : List Invocation).length, c.callback = 7 → 7 = 8) :=
  C6_setCallback_replaces_obligation ⟨[some ⟨10, 7, 20⟩], []⟩ 0 ⟨10, 7, 20⟩ 8 21 (by decide)

/-- C7: in every state, destroying a live handle whose callback is null logs
nothing, whatever its image and user hold.  In every state, the empty store
included, the default constructor builds a handle with three null members and
logs nothing, and destroying that handle logs nothing; the parameterized
constructor with the callback (and user) omitted builds a handle with the given
image and a null callback and user, and destroying that handle logs nothing. -/
theorem C7_no_callback_no_invocation (m : Machine) (image : Nat) :
    (∀ a h, m.lookup a = some h → h.callback = nullptr →
      ∃ m1, m.dtor a = some m1 ∧ m1.calls = m.calls) ∧
    (m.defaultConstruct =
        (m.objs.length, ⟨m.objs ++ [some ⟨nullptr, nullptr, nullptr⟩], m.calls⟩) ∧
      (m.defaultConstruct).2.lookup (m.defaultConstruct).1 = some ⟨nullptr, nullptr, nullptr⟩ ∧
      (m.defaultConstruct).2.calls = m.calls ∧
      ∃ m1, (m.defaultConstruct).2.dtor (m.defaultConstruct).1 = some m1 ∧
        m1.calls = m.calls) ∧
    (m.construct image =
        (m.objs.length, ⟨m.objs ++ [some ⟨image, nullptr, nullptr⟩], m.calls⟩) ∧
      (m.construct image).2.lookup (m.construct image).1 = some ⟨image, nullptr, nullptr⟩ ∧
      (m.construct image).2.calls = m.calls ∧
      ∃ m1, (m.construct image).2.dtor (m.construct image).1 = some m1 ∧
        m1.calls = m.calls) :=
  ⟨fun _ _ hl hc => ⟨_, Machine.dtor_null hl hc, rfl⟩,
   ⟨rfl, Machine.lookup_alloc_self m {}, rfl,
    ⟨_, Machine.dtor_null (Machine.lookup_alloc_self m {}) rfl, rfl⟩⟩,
   ⟨rfl, Machine.lookup_alloc_self m ⟨image, nullptr, nullptr⟩, rfl,
    ⟨_, Machine.dtor_null (Machine.lookup_alloc_self m ⟨image, nullptr, nullptr⟩) rfl, rfl⟩⟩⟩

/-- Witness of C7: the destruction of a handle with image 10 and user 20 but no
callback, in a store whose log already has an entry; the default constructor
and the constructor called with image 11 only, both on the empty store. -/
theorem C7_no_callback_no_invocation_witness :
    (∃ m1, Machine.dtor ⟨[some ⟨10, 0, 20⟩], [⟨7, 1, 2⟩]⟩ 0 = some m1 ∧
      m1.calls = [⟨7, 1, 2⟩]) ∧
    (Machine.defaultConstruct ⟨[], []⟩ = (0, ⟨[some ⟨nullptr, nullptr, nullptr⟩], []⟩) ∧
      (Machine.defaultConstruct ⟨[], []⟩).2.lookup (Machine.defaultConstruct ⟨[], []⟩).1 =
        some ⟨nullptr, nullptr, nullptr⟩ ∧
      (Machine.defaultConstruct ⟨[], []⟩).2.calls = [] ∧
      ∃ m1, (Machine.defaultConstruct ⟨[], []⟩).2.dtor
        (Machine.defaultConstruct ⟨[], []⟩).1 = some m1 ∧ m1.calls = []) ∧
    (Machine.construct ⟨[], []⟩ 11 = (0, ⟨[some ⟨11, nullptr, nullptr⟩], []⟩) ∧
      (Machine.construct ⟨[], []⟩ 11).2.lookup (Machine.construct ⟨[], []⟩ 11).1 =
        some ⟨11, nullptr, nullptr⟩ ∧
      (Machine.construct ⟨[], []⟩ 11).2.calls = [] ∧
      ∃ m1, (Machine.construct ⟨[], []⟩ 11).2.dtor
        (Machine.construct ⟨[], []⟩ 11).1 = some m1 ∧ m1.calls = []) :=
  ⟨(C7_no_callback_no_invocation ⟨[some ⟨10, 0, 20⟩], [⟨7, 1, 2⟩]⟩ 11).1 0 ⟨10, 0, 20⟩
      (by decide) (by decide),
    (C7_no_callback_no_invocation ⟨[], []⟩ 11).2.1,
    (C7_no_callback_no_invocation ⟨[], []⟩ 11).2.2⟩

/-- C8: for a handle constructed with image `i0`, a non-null callback `cb` and
user `u`, writing `i1` to the public `image` member logs nothing and changes
neither callback nor user, and the destruction that follows logs exactly one
invocation, `cb (i1, u)`: the callback receives the updated image. -/
theorem C8_callback_receives_current_image (m : Machine) (i0 cb u i1 : Nat)
    (hc : cb ≠ nullptr) :
    ∃ m1 m2, (m.construct i0 cb u).2.lookup (m.construct i0 cb u).1 = some ⟨i0, cb, u⟩ ∧
      (m.construct i0 cb u).2.writeImage (m.construct i0 cb u).1 i1 = some m1 ∧
      m1.lookup (m.construct i0 cb u).1 = some ⟨i1, cb, u⟩ ∧ m1.calls = m.calls ∧
      m1.dtor (m.construct i0 cb u).1 = some m2 ∧
      m2.calls = m.calls ++ [⟨cb, i1, u⟩] := by
  have h0 : (m.construct i0 cb u).2.lookup (m.construct i0 cb u).1 = some ⟨i0, cb, u⟩ :=
    Machine.lookup_alloc_self m ⟨i0, cb, u⟩
  have h1 := Machine.lookup_store_self h0 ⟨i1, cb, u⟩
  exact ⟨_, _, h0, Machine.writeImage_eq h0 i1, h1, rfl, Machine.dtor_live h1 hc, rfl⟩

/-- Witness of C8: constructed with image 10, callback 7, user 20; the image is
then set to 11. -/
theorem C8_callback_receives_current_image_witness :
    ∃ m1 m2, (Machine.construct ⟨[], []⟩ 10 7 20).2.lookup
        (Machine.construct ⟨[], []⟩ 10 7 20).1 = some ⟨10, 7, 20⟩ ∧
      (Machine.construct ⟨[], []⟩ 10 7 20).2.writeImage
        (Machine.construct ⟨[], []⟩ 10 7 20).1 11 = some m1 ∧
      m1.lookup (Machine.construct ⟨[], []⟩ 10 7 20).1 = some ⟨11, 7, 20⟩ ∧
      m1.calls = [] ∧
      m1.dtor (Machine.construct ⟨[], []⟩ 10 7 20).1 = some m2 ∧
      m2.calls = [] ++ [⟨7, 11, 20⟩] :=
  C8_callback_receives_current_image ⟨[], []⟩ 10 7 20 11 (by decide)

/-- C9: from a live handle with a non-null callback, image and user `h`, a
chain of `n` move constructions (each new handle built from the previous one)
succeeds, logs nothing and yields `n + 1` distinct handles, the first being the
original one.  Destroying all of them, in any order, logs in total exactly one
invocation, `h.callback (h.image, h.user)`; and it is the destruction of the
last handle of the chain that logs it: after any number of destructions the
invocation is in the log exactly when the last handle has been destroyed. -/
theorem C9_move_chain_single_release (m : Machine) (a : Nat) (h : SynchronizedImage)
    (n : Nat) (hl : m.lookup a = some h) (hc : h.callback ≠ nullptr) :
    ∃ hs l m1, Machine.moveChain n m a = some (hs, m1) ∧ m1.calls = m.calls ∧
      hs.length = n + 1 ∧ hs.head? = some a ∧ hs.getLast? = some l ∧ hs.Nodup ∧
      ∀ order : List Nat, order.Perm hs →
        (∃ m2, m1.dtorAll order = some m2 ∧
          m2.calls = m.calls ++ [⟨h.callback, h.image, h.user⟩]) ∧
        ∀ k, ∃ m2, m1.dtorAll (order.take k) = some m2 ∧
          m2.calls = m.calls ++
            (if l ∈ order.take k then [⟨h.callback, h.image, h.user⟩] else []) := by
  obtain ⟨hs, l, m1, hch, hcalls, hlen, hhead, hlast, hnd, _, hll, hnull, _, _⟩ :=
    Machine.moveChain_spec h n m a hl
  refine ⟨hs, l, m1, hch, hcalls, hlen, hhead, hlast, hnd, ?_⟩
  intro order hperm
  have hond : order.Nodup := hperm.nodup_iff.mpr hnd
  have hlmem : l ∈ order := hperm.mem_iff.mpr (List.mem_of_getLast?_eq_some hlast)
  have hsub : ∀ as : List Nat, (∀ c ∈ as, c ∈ order) →
      ∀ c ∈ as, c ≠ l → ∃ x, m1.lookup c = some x ∧ x.callback = nullptr :=
    fun as hin c hcm hcl => hnull c (hperm.mem_iff.mp (hin c hcm)) hcl
  constructor
  · obtain ⟨m2, h2, hc2⟩ :=
      Machine.dtorAll_single l h hc order m1 hond hll (hsub order fun _ hcm => hcm)
    exact ⟨m2, h2, by rw [hc2, if_pos hlmem, hcalls]⟩
  · intro k
    obtain ⟨m2, h2, hc2⟩ :=
      Machine.dtorAll_single l h hc (order.take k) m1
        (List.Nodup.sublist (List.take_sublist k order) hond) hll
        (hsub (order.take k) fun _ hcm => List.mem_of_mem_take hcm)
    exact ⟨m2, h2, by rw [hc2, hcalls]⟩

/-- Witness of C9: the handle (10, 7, 20) moved twice.  Evaluated on the
destruction order third, first, second handle: nothing is logged by the two
moves, the one invocation 7 (10, 20) is logged by the first destruction, the
whole log after all three is that invocation; destroying only the first two
handles logs nothing. -/
theorem C9_move_chain_single_release_witness :
    ((Machine.moveChain 2 ⟨[some ⟨10, 7, 20⟩], []⟩ 0).map (fun r => (r.1, r.2.calls)) =
        some ([0, 1, 2], []) ∧
      ((Machine.moveChain 2 ⟨[some ⟨10, 7, 20⟩], []⟩ 0).bind
        (fun r => r.2.dtorAll [2])).map (fun m2 => m2.calls) = some [⟨7, 10, 20⟩] ∧
      ((Machine.moveChain 2 ⟨[some ⟨10, 7, 20⟩], []⟩ 0).bind
        (fun r => r.2.dtorAll [2, 0, 1])).map (fun m2 => m2.calls) = some [⟨7, 10, 20⟩] ∧
      ((Machine.moveChain 2 ⟨[some ⟨10, 7, 20⟩], []⟩ 0).bind
        (fun r => r.2.dtorAll [1, 0])).map (fun m2 => m2.calls) = some []) ∧
    ∃ hs l m1, Machine.moveChain 2 ⟨[some ⟨10, 7, 20⟩], []⟩ 0 = some (hs, m1) ∧
      m1.calls = [] ∧
      hs.length = 2 + 1 ∧ hs.head? = some 0 ∧ hs.getLast? = some l ∧ hs.Nodup ∧
      ∀ order : List Nat, order.Perm hs →
        (∃ m2, m1.dtorAll order = some m2 ∧ m2.calls = [] ++ [⟨7, 10, 20⟩]) ∧
        ∀ k, ∃ m2, m1.dtorAll (order.take k) = some m2 ∧
          m2.calls = [] ++ (if l ∈ order.take k then [⟨7, 10, 20⟩] else []) :=
  ⟨by decide,
    C9_move_chain_single_release ⟨[some ⟨10, 7, 20⟩], []⟩ 0 ⟨10, 7, 20⟩ 2
      (by decide) (by decide)⟩

/-- C10: in every state, the empty store included, the parameterized
constructor builds a handle that stores its three arguments verbatim (null
callback and user when omitted), leaves the other objects and the log as they
are, and on that handle `image`, `hasCallback`, `getCallback` and `getUser`
read the arguments back; on every live handle `hasCallback` is true exactly
when `getCallback` is non-null, and `hasCallback`, `getCallback` and `getUser`
return the state they were called in, so no member is changed and nothing is
logged. -/
theorem C10_constructor_and_accessors (m : Machine) (image cb u : Nat) :
    (m.construct image cb u =
        (m.objs.length, ⟨m.objs ++ [some ⟨image, cb, u⟩], m.calls⟩) ∧
      (m.construct image cb u).2.lookup (m.construct image cb u).1 = some ⟨image, cb, u⟩ ∧
      (m.construct image cb u).2.calls = m.calls ∧
      (m.construct image cb u).2.readImage (m.construct image cb u).1 = some image ∧
      (m.construct image cb u).2.hasCallback (m.construct image cb u).1 =
        some (cb != nullptr, (m.construct image cb u).2) ∧
      (m.construct image cb u).2.getCallback (m.construct image cb u).1 =
        some (cb, (m.construct image cb u).2) ∧
      (m.construct image cb u).2.getUser (m.construct image cb u).1 =
        some (u, (m.construct image cb u).2)) ∧
    (m.construct image cb = m.construct image cb nullptr ∧
      m.construct image = m.construct image nullptr nullptr) ∧
    (∀ a h, m.lookup a = some h →
      (m.hasCallback a = some (h.callback != nullptr, m) ∧
        m.getCallback a = some (h.callback, m) ∧
        m.getUser a = some (h.user, m)) ∧
      (∃ b c, m.hasCallback a = some (b, m) ∧ m.getCallback a = some (c, m) ∧
        (b = true ↔ c ≠ nullptr))) := by
  have h0 : (m.construct image cb u).2.lookup (m.construct image cb u).1 =
      some ⟨image, cb, u⟩ := Machine.lookup_alloc_self m ⟨image, cb, u⟩
  have hhas : ∀ (m0 : Machine) (a : Nat) (h : SynchronizedImage), m0.lookup a = some h →
      m0.hasCallback a = some (h.callback != nullptr, m0) := by
    intro m0 a h hl
    simp [Machine.hasCallback, Machine.readCallback_eq hl]
  refine ⟨⟨rfl, h0, rfl, Machine.readImage_eq h0, hhas _ _ _ h0,
    @Machine.getCallback_eq _ _ ⟨image, cb, u⟩ h0, @Machine.getUser_eq _ _ ⟨image, cb, u⟩ h0⟩,
    ⟨rfl, rfl⟩, ?_⟩
  intro a h hl
  refine ⟨⟨hhas m a h hl, Machine.getCallback_eq hl, Machine.getUser_eq hl⟩,
    ⟨_, _, hhas m a h hl, Machine.getCallback_eq hl, ?_⟩⟩
  simp

/-- Witness of C10: the constructor called with (11, 8, 21) on the empty
store, and the accessors on a store with the handle (10, 7, 20). -/
theorem C10_constructor_and_accessors_witness :
    (Machine.construct ⟨[], []⟩ 11 8 21 = (0, ⟨[some ⟨11, 8, 21⟩], []⟩) ∧
      (Machine.construct ⟨[], []⟩ 11 8 21).2.lookup (Machine.construct ⟨[], []⟩ 11 8 21).1 =
        some ⟨11, 8, 21⟩ ∧
      (Machine.construct ⟨[], []⟩ 11 8 21).2.calls = [] ∧
      (Machine.construct ⟨[], []⟩ 11 8 21).2.readImage
        (Machine.construct ⟨[], []⟩ 11 8 21).1 = some 11 ∧
      (Machine.construct ⟨[], []⟩ 11 8 21).2.hasCallback
        (Machine.construct ⟨[], []⟩ 11 8 21).1 =
        some ((8 : Nat) != nullptr, (Machine.construct ⟨[], []⟩ 11 8 21).2) ∧
      (Machine.construct ⟨[], []⟩ 11 8 21).2.getCallback
        (Machine.construct ⟨[], []⟩ 11 8 21).1 =
        some (8, (Machine.construct ⟨[], []⟩ 11 8 21).2) ∧
      (Machine.construct ⟨[], []⟩ 11 8 21).2.getUser
        (Machine.construct ⟨[], []⟩ 11 8 21).1 =
        some (21, (Machine.construct ⟨[], []⟩ 11 8 21).2)) ∧
    (Machine.construct ⟨[], []⟩ 11 8 = Machine.construct ⟨[], []⟩ 11 8 nullptr ∧
      Machine.construct ⟨[], []⟩ 11 = Machine.construct ⟨[], []⟩ 11 nullptr nullptr) ∧
    ((Machine.hasCallback ⟨[some ⟨10, 7, 20⟩], []⟩ 0 =
        some ((7 : Nat) != nullptr, ⟨[some ⟨10, 7, 20⟩], []⟩) ∧
      Machine.getCallback ⟨[some ⟨10, 7, 20⟩], []⟩ 0 = some (7, ⟨[some ⟨10, 7, 20⟩], []⟩) ∧
      Machine.getUser ⟨[some ⟨10, 7, 20⟩], []⟩ 0 = some (20, ⟨[some ⟨10, 7, 20⟩], []⟩)) ∧
      (∃ b c, Machine.hasCallback ⟨[some ⟨10, 7, 20⟩], []⟩ 0 =
          some (b, ⟨[some ⟨10, 7, 20⟩], []⟩) ∧
        Machine.getCallback ⟨[some ⟨10, 7, 20⟩], []⟩ 0 = some (c, ⟨[some ⟨10, 7, 20⟩], []⟩) ∧
        (b = true ↔ c ≠ nullptr))) :=
  ⟨(C10_constructor_and_accessors ⟨[], []⟩ 11 8 21).1,
    (C10_constructor_and_accessors ⟨[], []⟩ 11 8 21).2.1,
    (C10_constructor_and_accessors ⟨[some ⟨10, 7, 20⟩], []⟩ 11 8 21).2.2 0 ⟨10, 7, 20⟩
      (by decide)⟩

/-- C13: over the states `m1` reachable from a state `m` by move
constructions, move assignments (between any two live handles, possibly the
same one) and destructions.  The number of live handles that store a non-null
callback has not grown, and neither has, for any non-null callback `c`, the
number of live handles that store `c`: a callback carried by at most one live
handle in `m` is carried by at most one in `m1`.  From `m1`, a step is defined
exactly when its operands are alive, no step increases the number of live
handles that store a non-null callback, a move construction leaves it
unchanged, and the source of a move construction or of a move assignment into
a distinct handle stores a null callback afterwards. -/
theorem C13_obligation_count_never_grows (m : Machine) (steps : List Machine.Step)
    (m1 : Machine) (hrun : m.run steps = some m1) :
    (m1.liveCallbacks ≤ m.liveCallbacks ∧
      ∀ c, c ≠ nullptr →
        m1.carriers c ≤ m.carriers c ∧ (m.carriers c ≤ 1 → m1.carriers c ≤ 1)) ∧
    (∀ st, (m1.step st).isSome = st.operandsLive m1) ∧
    (∀ st m2, m1.step st = some m2 → m2.liveCallbacks ≤ m1.liveCallbacks) ∧
    (∀ rhs b m2, m1.moveConstruct rhs = some (b, m2) →
      m2.liveCallbacks = m1.liveCallbacks ∧ b ≠ rhs ∧
        m2.readCallback rhs = some nullptr) ∧
    (∀ this rhs m2, this ≠ rhs → m1.moveAssign this rhs = some m2 →
      m2.readCallback rhs = some nullptr) := by
  have hq0 : (nullptr != nullptr) = false := by simp
  refine ⟨⟨Machine.run_count_le (fun c => c != nullptr) hq0 steps m m1 hrun, ?_⟩,
    Machine.step_isSome m1,
    fun st m2 hst => Machine.step_count_le (fun c => c != nullptr) hq0 m1 st m2 hst, ?_, ?_⟩
  · intro c hc
    have hqc : (nullptr == c) = false := by
      simpa using fun e : nullptr = c => hc e.symm
    have hle : m1.carriers c ≤ m.carriers c :=
      Machine.run_count_le (fun x => x == c) hqc steps m m1 hrun
    exact ⟨hle, fun h1 => Nat.le_trans hle h1⟩
  · intro rhs b m2 hmc
    cases hl : m1.lookup rhs with
    | none => simp [Machine.moveConstruct_none hl] at hmc
    | some h =>
      have hlt := Machine.lookup_lt hl
      rw [Machine.moveConstruct_eq hl] at hmc
      simp only [Option.some.injEq, Prod.mk.injEq] at hmc
      obtain ⟨hb, hm2⟩ := hmc
      subst hb
      subst hm2
      have hsrc := Machine.lookup_moved m1 hlt ⟨nullptr, nullptr, h.user⟩ h m1.calls rhs
      rw [if_neg (by omega), if_pos rfl] at hsrc
      exact ⟨Machine.count_moveConstruct (fun c => c != nullptr) hq0 hl, by omega,
        @Machine.readCallback_eq _ _ ⟨nullptr, nullptr, h.user⟩ hsrc⟩
  · intro this rhs m2 hne hma
    cases hd : m1.lookup this with
    | none => simp [Machine.moveAssign_none (Or.inl hd)] at hma
    | some d =>
      cases hs : m1.lookup rhs with
      | none => simp [Machine.moveAssign_none (Or.inr hs)] at hma
      | some s =>
        rw [Machine.moveAssign_eq hd hs hne] at hma
        simp only [Option.some.injEq] at hma
        subst hma
        have hs1 : (m1.store this s).lookup rhs = some s := by
          rw [Machine.lookup_store hd, if_neg (Ne.symm hne), hs]
        exact @Machine.readCallback_eq _ _ ⟨nullptr, nullptr, s.user⟩
          (Machine.lookup_store_self hs1 ⟨nullptr, nullptr, s.user⟩)

/-- Witness of C13: from the handles (10, 7, 20) and (11, 8, 21), a third
handle is move-constructed from the first, then move-assigned into the second
(whose callback 8 is dropped), then the first is destroyed: one carrier is
left of the two. -/
theorem C13_obligation_count_never_grows_witness :
    Machine.run ⟨[some ⟨10, 7, 20⟩, some ⟨11, 8, 21⟩], []⟩
        [.moveConstruct 0, .moveAssign 1 2, .destroy 0] =
      some ⟨[none, some ⟨10, 7, 20⟩, some ⟨0, 0, 20⟩], []⟩ ∧
    Machine.liveCallbacks ⟨[none, some ⟨10, 7, 20⟩, some ⟨0, 0, 20⟩], []⟩ = 1 ∧
    Machine.liveCallbacks ⟨[some ⟨10, 7, 20⟩, some ⟨11, 8, 21⟩], []⟩ = 2 ∧
    (Machine.liveCallbacks ⟨[none, some ⟨10, 7, 20⟩, some ⟨0, 0, 20⟩], []⟩ ≤
        Machine.liveCallbacks ⟨[some ⟨10, 7, 20⟩, some ⟨11, 8, 21⟩], []⟩ ∧
      ∀ c, c ≠ nullptr →
        Machine.carriers ⟨[none, some ⟨10, 7, 20⟩, some ⟨0, 0, 20⟩], []⟩ c ≤
          Machine.carriers ⟨[some ⟨10, 7, 20⟩, some ⟨11, 8, 21⟩], []⟩ c ∧
        (Machine.carriers ⟨[some ⟨10, 7, 20⟩, some ⟨11, 8, 21⟩], []⟩ c ≤ 1 →
          Machine.carriers ⟨[none, some ⟨10, 7, 20⟩, some ⟨0, 0, 20⟩], []⟩ c ≤ 1)) :=
  ⟨by decide, by decide, by decide,
    (C13_obligation_count_never_grows ⟨[some ⟨10, 7, 20⟩, some ⟨11, 8, 21⟩], []⟩
      [.moveConstruct 0, .moveAssign 1 2, .destroy 0]
      ⟨[none, some ⟨10, 7, 20⟩, some ⟨0, 0, 20⟩], []⟩ (by decide)).1⟩

/-- C14: for a live handle with members `h`, move-constructing a second handle
from it and move-assigning the second back into the first restores the first
to exactly `h`, leaves the second with a null image and a null callback, and
logs nothing in either move; destroying both afterwards, in either order, logs
exactly the one invocation `h.callback (h.image, h.user)` when the callback is
non-null and nothing otherwise. -/
theorem C14_move_round_trip (m : Machine) (a : Nat) (h : SynchronizedImage)
    (hl : m.lookup a = some h) :
    ∃ b m1 m2 x, m.moveConstruct a = some (b, m1) ∧ b ≠ a ∧ m1.calls = m.calls ∧
      m1.moveAssign a b = some m2 ∧ m2.calls = m.calls ∧
      m2.lookup a = some h ∧
      m2.lookup b = some x ∧ x.image = nullptr ∧ x.callback = nullptr ∧
      (∃ m3, m2.dtorAll [a, b] = some m3 ∧
        m3.calls = m.calls ++
          (if h.callback ≠ nullptr then [⟨h.callback, h.image, h.user⟩] else [])) ∧
      (∃ m3, m2.dtorAll [b, a] = some m3 ∧
        m3.calls = m.calls ++
          (if h.callback ≠ nullptr then [⟨h.callback, h.image, h.user⟩] else [])) := by
  have hlt := Machine.lookup_lt hl
  have hne : m.objs.length ≠ a := by omega
  have hlk := Machine.lookup_moved m hlt ⟨nullptr, nullptr, h.user⟩ h m.calls
  have ha := hlk a
  rw [if_neg (Ne.symm hne), if_pos rfl] at ha
  have hb := hlk m.objs.length
  rw [if_pos rfl] at hb
  have hasg := Machine.moveAssign_eq ha hb (Ne.symm hne)
  have ha1 := Machine.lookup_store_self ha h
  have hb1 : (Machine.store ⟨m.objs.set a (some ⟨nullptr, nullptr, h.user⟩) ++ [some h],
      m.calls⟩ a h).lookup m.objs.length = some h := by
    rw [Machine.lookup_store ha, if_neg hne, hb]
  have hb2 := Machine.lookup_store_self hb1 ⟨nullptr, nullptr, h.user⟩
  have ha2 : ((Machine.store ⟨m.objs.set a (some ⟨nullptr, nullptr, h.user⟩) ++ [some h],
      m.calls⟩ a h).store m.objs.length ⟨nullptr, nullptr, h.user⟩).lookup a = some h := by
    rw [Machine.lookup_store hb1, if_neg (Ne.symm hne), ha1]
  refine ⟨_, _, _, ⟨nullptr, nullptr, h.user⟩, Machine.moveConstruct_eq hl, hne, rfl, hasg,
    rfl, ha2, hb2, rfl, rfl, ?_, ?_⟩
  · have hb3 := Machine.lookup_set_none
      ((Machine.store ⟨m.objs.set a (some ⟨nullptr, nullptr, h.user⟩) ++ [some h],
        m.calls⟩ a h).store m.objs.length ⟨nullptr, nullptr, h.user⟩) a m.objs.length
      (m.calls ++ (if h.callback ≠ nullptr then [⟨h.callback, h.image, h.user⟩] else []))
    rw [if_neg hne, hb2] at hb3
    exact ⟨_, Machine.dtorAll_pair (Machine.dtor_eq ha2) (Machine.dtor_null hb3 rfl), rfl⟩
  · have ha3 := Machine.lookup_set_none
      ((Machine.store ⟨m.objs.set a (some ⟨nullptr, nullptr, h.user⟩) ++ [some h],
        m.calls⟩ a h).store m.objs.length ⟨nullptr, nullptr, h.user⟩) m.objs.length a m.calls
    rw [if_neg (Ne.symm hne), ha2] at ha3
    exact ⟨_, Machine.dtorAll_pair (Machine.dtor_null hb2 rfl) (Machine.dtor_eq ha3), rfl⟩

/-- Witness of C14 on a store holding one handle (image 10, callback 7, user 20). -/
theorem C14_move_round_trip_witness :
    ∃ b m1 m2 x, Machine.moveConstruct ⟨[some ⟨10, 7, 20⟩], []⟩ 0 = some (b, m1) ∧
      b ≠ 0 ∧ m1.calls = [] ∧
      m1.moveAssign 0 b = some m2 ∧ m2.calls = [] ∧
      m2.lookup 0 = some ⟨10, 7, 20⟩ ∧
      m2.lookup b = some x ∧ x.image = nullptr ∧ x.callback = nullptr ∧
      (∃ m3, m2.dtorAll [0, b] = some m3 ∧
        m3.calls = [] ++ (if (7 : Nat) ≠ nullptr then [⟨7, 10, 20⟩] else [])) ∧
      (∃ m3, m2.dtorAll [b, 0] = some m3 ∧
        m3.calls = [] ++ (if (7 : Nat) ≠ nullptr then [⟨7, 10, 20⟩] else [])) :=
  C14_move_round_trip ⟨[some ⟨10, 7, 20⟩], []⟩ 0 ⟨10, 7, 20⟩ (by decide)

/-- C15: a move clears only image and callback on the source.  For every live
source with members `s`: after move construction from it (whether or not any
other handle exists), and after move assignment from it into any distinct live
handle, `getUser` on the source still returns `s.user` and the source still
holds that user, while the source's image is null and `getCallback` returns
null; both accessors leave the state as it is. -/
theorem C15_move_keeps_source_user (m : Machine) (src : Nat) (s : SynchronizedImage)
    (hs : m.lookup src = some s) :
    (∃ b m1, m.moveConstruct src = some (b, m1) ∧
      m1.lookup src = some ⟨nullptr, nullptr, s.user⟩ ∧
      m1.getUser src = some (s.user, m1) ∧ m1.readImage src = some nullptr ∧
      m1.getCallback src = some (nullptr, m1)) ∧
    (∀ dst d, m.lookup dst = some d → dst ≠ src →
      ∃ m1, m.moveAssign dst src = some m1 ∧
        m1.lookup src = some ⟨nullptr, nullptr, s.user⟩ ∧
        m1.getUser src = some (s.user, m1) ∧ m1.readImage src = some nullptr ∧
        m1.getCallback src = some (nullptr, m1)) := by
  have hlt := Machine.lookup_lt hs
  have hc := Machine.lookup_moved m hlt ⟨nullptr, nullptr, s.user⟩ s m.calls src
  rw [if_neg (by omega), if_pos rfl] at hc
  refine ⟨⟨_, _, Machine.moveConstruct_eq hs, hc,
      @Machine.getUser_eq _ _ ⟨nullptr, nullptr, s.user⟩ hc,
      @Machine.readImage_eq _ _ ⟨nullptr, nullptr, s.user⟩ hc,
      @Machine.getCallback_eq _ _ ⟨nullptr, nullptr, s.user⟩ hc⟩, ?_⟩
  intro dst d hd hne
  have hs1 : (m.store dst s).lookup src = some s := by
    rw [Machine.lookup_store hd, if_neg (Ne.symm hne), hs]
  have hs2 := Machine.lookup_store_self hs1 ⟨nullptr, nullptr, s.user⟩
  exact ⟨_, Machine.moveAssign_eq hd hs hne, hs2,
    @Machine.getUser_eq _ _ ⟨nullptr, nullptr, s.user⟩ hs2,
    @Machine.readImage_eq _ _ ⟨nullptr, nullptr, s.user⟩ hs2,
    @Machine.getCallback_eq _ _ ⟨nullptr, nullptr, s.user⟩ hs2⟩

/-- Witness of C15: move construction from the handle (11, 8, 21) that is alone
in the store, and move assignment of the source (11, 8, 21) at address 1 into
the destination (10, 7, 20) at address 0. -/
theorem C15_move_keeps_source_user_witness :
    (∃ b m1, Machine.moveConstruct ⟨[some ⟨11, 8, 21⟩], []⟩ 0 = some (b, m1) ∧
      m1.lookup 0 = some ⟨nullptr, nullptr, 21⟩ ∧
      m1.getUser 0 = some (21, m1) ∧ m1.readImage 0 = some nullptr ∧
      m1.getCallback 0 = some (nullptr, m1)) ∧
    (∃ m1, Machine.moveAssign ⟨[some ⟨10, 7, 20⟩, some ⟨11, 8, 21⟩], []⟩ 0 1 = some m1 ∧
      m1.lookup 1 = some ⟨nullptr, nullptr, 21⟩ ∧
      m1.getUser 1 = some (21, m1) ∧ m1.readImage 1 = some nullptr ∧
      m1.getCallback 1 = some (nullptr, m1)) :=
  ⟨(C15_move_keeps_source_user ⟨[some ⟨11, 8, 21⟩], []⟩ 0 ⟨11, 8, 21⟩ (by decide)).1,
    (C15_move_keeps_source_user ⟨[some ⟨10, 7, 20⟩, some ⟨11, 8, 21⟩], []⟩ 1 ⟨11, 8, 21⟩
      (by decide)).2 0 ⟨10, 7, 20⟩ (by decide) (by decide)⟩

/-- C16: on a live handle with members `h` (whatever user it stored) and for
every callback `cb`, null or not, `setCallback cb` with the user argument
omitted stores `cb`, resets the user to null, keeps the image and logs nothing,
so `getUser` returns null; the destruction that follows logs exactly
`cb (h.image, nullptr)`, not `cb (h.image, h.user)`, when `cb` is non-null, and
nothing when `cb` is null. -/
theorem C16_setCallback_default_user_resets (m : Machine) (a : Nat)
    (h : SynchronizedImage) (cb : Nat) (hl : m.lookup a = some h) :
    ∃ m1 m2, m.setCallback a cb = some m1 ∧ m1.calls = m.calls ∧
      m1.lookup a = some ⟨h.image, cb, nullptr⟩ ∧
      m1.getUser a = some (nullptr, m1) ∧
      m1.dtor a = some m2 ∧
      m2.calls = m.calls ++ (if cb ≠ nullptr then [⟨cb, h.image, nullptr⟩] else []) := by
  have h1 := Machine.lookup_store_self hl ⟨h.image, cb, nullptr⟩
  exact ⟨_, _, Machine.setCallback_eq hl cb nullptr, rfl, h1,
    @Machine.getUser_eq _ _ ⟨h.image, cb, nullptr⟩ h1,
    Machine.dtor_eq h1, rfl⟩

/-- Witness of C16: the handle (10, 7, 20), with the non-null user 20, gets
callback 8 and no user argument; and the same handle gets the null callback
and no user argument. -/
theorem C16_setCallback_default_user_resets_witness :
    (∃ m1 m2, Machine.setCallback ⟨[some ⟨10, 7, 20⟩], []⟩ 0 8 = some m1 ∧ m1.calls = [] ∧
      m1.lookup 0 = some ⟨10, 8, nullptr⟩ ∧
      m1.getUser 0 = some (nullptr, m1) ∧
      m1.dtor 0 = some m2 ∧
      m2.calls = [] ++ (if (8 : Nat) ≠ nullptr then [⟨8, 10, nullptr⟩] else [])) ∧
    (∃ m1 m2, Machine.setCallback ⟨[some ⟨10, 7, 20⟩], []⟩ 0 nullptr = some m1 ∧
      m1.calls = [] ∧
      m1.lookup 0 = some ⟨10, nullptr, nullptr⟩ ∧
      m1.getUser 0 = some (nullptr, m1) ∧
      m1.dtor 0 = some m2 ∧
      m2.calls = [] ++ (if nullptr ≠ nullptr then [⟨nullptr, 10, nullptr⟩] else [])) :=
  ⟨C16_setCallback_default_user_resets ⟨[some ⟨10, 7, 20⟩], []⟩ 0 ⟨10, 7, 20⟩ 8
      (by decide),
    C16_setCallback_default_user_resets ⟨[some ⟨10, 7, 20⟩], []⟩ 0 ⟨10, 7, 20⟩ nullptr
      (by decide)⟩

end filament.backend
